import Mathlib

/-!
# World-happiness map: verification of the core data pipeline

Shallow embedding of the core computations of the happiness-map
visualization (name reconciliation, per-country temporal index with its
nearest-year lookup, factor maxima, period averages, event filtering,
view state) together with proofs of the behavioural properties claimed
for them.  Numeric cell values are modelled as `Option ℚ` (a parse
failure yields `none`); machine floats are abstracted to rationals.
-/

namespace WorldHappiness

/-- The six fixed factor keys of `factorKeys` (src/unnamed/part_001,
lines 23–30). -/
inductive FactorKey
  | gdp | social | healthy | freedom | generosity | corruption
deriving DecidableEq, Repr

/-- One parsed CSV row (src/unnamed/part_001, lines 46–53 plus the
`iso3` tag added at line 69): country code (after reconciliation),
integer year and rank, nullable ladder score and six nullable factor
values. -/
structure Row where
  iso3 : Option String
  year : Int
  rank : Int
  ladder : Option ℚ
  gdp : Option ℚ
  social : Option ℚ
  healthy : Option ℚ
  freedom : Option ℚ
  generosity : Option ℚ
  corruption : Option ℚ
deriving DecidableEq, Repr

/-- Accessor `row[f.key]` for one of the six factor keys. -/
def factorValue (k : FactorKey) (r : Row) : Option ℚ :=
  match k with
  | .gdp => r.gdp
  | .social => r.social
  | .healthy => r.healthy
  | .freedom => r.freedom
  | .generosity => r.generosity
  | .corruption => r.corruption

/-- The comparator `(a,b) => d3.ascending(a.year, b.year)` used to sort a
country's rows. -/
def yearLE (a b : Row) : Prop := a.year ≤ b.year

instance : DecidableRel yearLE := fun a b => Int.decLe a.year b.year

instance : IsTotal Row yearLE := ⟨fun a b => Int.le_total a.year b.year⟩

instance : IsTrans Row yearLE := ⟨fun _ _ _ h1 h2 => le_trans h1 h2⟩

/-- Model of `byISO.get(iso3).slice().sort((a,b) => d3.ascending(a.year,b.year))`
(src/unnamed/part_001, line 116): stable ascending sort by year. -/
def sortByYear (rows : List Row) : List Row := rows.insertionSort yearLE

/-- The year-lookup chain of src/unnamed/part_001, lines 116–119 (same
code at src/src/main.js, lines 149–152):

`rows.find(r => r.year === year) || rows.slice().reverse().find(r => r.year <= year) || rows[rows.length - 1]`

applied to the ascending-sorted rows; `none` models JS `undefined`. -/
def lookupYear (rows : List Row) (q : Int) : Option Row :=
  (((sortByYear rows).find? (fun r => r.year == q)).orElse (fun _ =>
    (sortByYear rows).reverse.find? (fun r => decide (r.year ≤ q)))).orElse
    (fun _ => (sortByYear rows).getLast?)

/-- A row with only iso3/year/rank/ladder populated, as in the earliest
revision's parser (src/unnamed/part_000, lines 31–36). -/
def mkRow (iso : String) (y : Int) (rk : Int) (ld : Option ℚ) : Row :=
  { iso3 := some iso, year := y, rank := rk, ladder := ld,
    gdp := none, social := none, healthy := none, freedom := none,
    generosity := none, corruption := none }

/-! ## Map fill (drawMap) -/

/-- What the map renders for one country: the neutral background
(`"#1e293b"` in src/unnamed/part_001, line 101) or the rank-indexed
color `colorScale(rank)`. -/
inductive Fill
  | neutral
  | colored (rank : Int)
deriving DecidableEq, Repr

/-- Model of `happinessData.filter(d => d.year === year).map(d => [d.iso3, d.rank])`
(src/unnamed/part_001, line 89). -/
def yearRankPairs (hap : List Row) (y : Int) : List (Option String × Int) :=
  (hap.filter (fun r => r.year == y)).map (fun r => (r.iso3, r.rank))

/-- Model of `new Map(pairs).get(k)`: on duplicate keys the last pair wins. -/
def lastRank (pairs : List (Option String × Int)) (k : Option String) :
    Option Int :=
  ((pairs.filter (fun p => p.1 == k)).map (fun p => p.2)).getLast?

/-- The per-country fill of `drawMap` (src/unnamed/part_001, lines
88–110; same logic in src/src/main.js, lines 103–121 and
src/unnamed/part_000, lines 89–128): an exact-year rank map is built,
and `rank ? colorScale(rank) : neutral` colors the country — a rank of
`0` is falsy and also renders the neutral fill. -/
def mapFill (hap : List Row) (y : Int) (iso : Option String) : Fill :=
  match lastRank (yearRankPairs hap y) iso with
  | none => .neutral
  | some rk => if rk = 0 then .neutral else .colored rk

/-! ## Aggregates (factor maxima, period averages) -/

/-- Maximum of a list of numbers, `none` on the empty list (the
behaviour of `d3.max` on already-numeric values). -/
def jsMax : List ℚ → Option ℚ
  | [] => none
  | v :: vs =>
    match jsMax vs with
    | none => some v
    | some m => some (max v m)

/-- Model of `d3.max(filtered, d => d[f.key] ?? 0) || 1` (src/unnamed/part_001,
lines 79–81; src/src/main.js, lines 94–96): null factor values are
coerced to `0` before taking the maximum, and a falsy result (`0`, or
`undefined` on an empty dataset) becomes the default `1`. -/
def factorMax (obs : List Row) (k : FactorKey) : ℚ :=
  match jsMax (obs.map (fun r => (factorValue k r).getD 0)) with
  | none => 1
  | some m => if m = 0 then 1 else m

/-- The factor maximum as the claim words it: maximum over the non-null
values only (nulls absent, not zero), defaulting to `1` when every value
is null.  Stated for comparison with `factorMax`, which is what the code
computes. -/
def factorMaxClaim (obs : List Row) (k : FactorKey) : ℚ :=
  match jsMax (obs.filterMap (factorValue k)) with
  | none => 1
  | some m => m

/-- Mean of a list of numbers, `none` on the empty list (the behaviour
of `d3.mean` once invalid values are dropped). -/
def jsMean (vals : List ℚ) : Option ℚ :=
  if vals.isEmpty then none else some (vals.sum / (vals.length : ℚ))

/-- Membership of a row's year in an inclusive range; `hi = none` is the
unbounded upper end of the post range. -/
def inRangeB (lo : Int) (hi : Option Int) (r : Row) : Bool :=
  decide (lo ≤ r.year) &&
    (match hi with
     | none => true
     | some h => decide (r.year ≤ h))

/-- Model of `preYears.length ? d3.mean(preYears, r => r.ladder) : null`
(src/unnamed/part_001, lines 256–260): filter the rows to the year
range, then average the non-null ladder scores; `d3.mean` yields
`undefined` when every ladder in range is null, and JS `== null` treats
`undefined` and `null` alike, so both empty-range and all-null collapse
to `none`. -/
def periodAverage (rows : List Row) (lo : Int) (hi : Option Int) :
    Option ℚ :=
  let inR := rows.filter (inRangeB lo hi)
  if inR.isEmpty then none
  else jsMean (inR.filterMap (fun r => r.ladder))

/-- The ladder scores the claim says the average ranges over: non-null
scores of in-range observations. -/
def qualifyingLadders (rows : List Row) (lo : Int) (hi : Option Int) :
    List ℚ :=
  (rows.filter (inRangeB lo hi)).filterMap (fun r => r.ladder)

/-- The rendered period-comparison chart: either the explicit
`"No data available for this country."` paragraph or the labelled bars. -/
inductive CovidView
  | noData
  | bars (data : List (String × ℚ))
deriving DecidableEq, Repr

def preLabel : String := "Pre-Covid (2015–2019)"

def postLabel : String := "Post-Covid (2020+)"

/-- Model of `drawCovidComparison` (src/unnamed/part_001, lines 251–270): compute
both period averages; if both are null-ish render the explicit no-data
paragraph, otherwise render bars for exactly the non-null averages
(`.filter(d => d.value != null)`). -/
def drawCovidComparison (rows : List Row) : CovidView :=
  let preAvg := periodAverage rows 2015 (some 2019)
  let postAvg := periodAverage rows 2020 none
  if preAvg = none ∧ postAvg = none then .noData
  else .bars (([(preLabel, preAvg), (postLabel, postAvg)]).filterMap
    (fun p => p.2.map (fun v => (p.1, v))))

/-! ## Name reconciliation and the retained dataset -/

/-- A character the JS `String.prototype.trim` strips: the common
whitespace code points (space, tab, LF, VT, FF, CR, NBSP). -/
def jsWhitespace (c : Char) : Bool :=
  c = Char.ofNat 32 || c = Char.ofNat 9 || c = Char.ofNat 10 ||
  c = Char.ofNat 11 || c = Char.ofNat 12 || c = Char.ofNat 13 ||
  c = Char.ofNat 160

/-- Model of `name.trim()`: strip leading and trailing whitespace. -/
def jsTrim (s : String) : String :=
  String.mk
    (((s.data.dropWhile jsWhitespace).reverse.dropWhile jsWhitespace).reverse)

/-- The value a lookup `dict[name]` contributes to a JS `||` chain:
`none` when the key is absent or its value is the empty string (which is
falsy and would fall through the chain). -/
def jsGet (dict : List (String × String)) (n : String) : Option String :=
  match dict.lookup n with
  | some v => if v = "" then none else some v
  | none => none

/-- Model of `name.replace(/\./g,"").replace(/[’']/g,"'")` (src/unnamed/part_001,
line 64): strip every period (U+002E), then map the apostrophe variants
(U+2019 and U+0027) to the canonical apostrophe U+0027 — on characters,
U+2019 is rewritten and U+0027 is left as itself. -/
def normalizeName (s : String) : String :=
  String.mk ((s.data.filter (fun ch => ch ≠ Char.ofNat 46)).map
    (fun ch => if ch = Char.ofNat 8217 then Char.ofNat 39 else ch))

/-- Reconciliation of a polygon feature's display name
(src/unnamed/part_001, lines 62–66): trim, look the trimmed name up, and
on a miss retry with the period/apostrophe normalization; a raw name
that is absent or trims to the empty string resolves to `none`. -/
def resolveGeo (dict : List (String × String)) (raw : Option String) :
    Option String :=
  match raw with
  | none => none
  | some rw =>
    if rw = "" then none
    else
      let name := jsTrim rw
      if name = "" then none
      else (jsGet dict name).orElse (fun _ => jsGet dict (normalizeName name))

/-- Reconciliation of a tabular row's country name (trim in the row
parser, src/unnamed/part_001, lines 44–45, then the single lookup
`countryToISO3[d.country] || null` at line 69): no normalization retry
is applied on this path. -/
def resolveCsv (dict : List (String × String)) (raw : Option String) :
    Option String :=
  match raw with
  | none => none
  | some rw =>
    if rw = "" then none
    else
      let name := jsTrim rw
      if name = "" then none
      else jsGet dict name

/-- The resolution algorithm as the claim words it for names from either
source: trim, look up, retry after period-stripping/apostrophe
normalization, else `none`.  Stated for comparison: the geo path
implements it, the tabular path does not. -/
def resolveClaim (dict : List (String × String)) (raw : Option String) :
    Option String :=
  match raw with
  | none => none
  | some rw =>
    if rw = "" then none
    else
      let name := jsTrim rw
      if name = "" then none
      else (jsGet dict name).orElse (fun _ => jsGet dict (normalizeName name))

/-- A polygon feature: display name and the reconciled code written into
`properties.iso_a3`. -/
structure GeoFeature where
  name : Option String
  iso3 : Option String
deriving DecidableEq, Repr

/-- Tag every feature with its reconciled code (src/unnamed/part_001,
lines 62–66). -/
def tagFeatures (dict : List (String × String))
    (names : List (Option String)) : List GeoFeature :=
  names.map (fun nm => { name := nm, iso3 := resolveGeo dict nm })

/-- Model of `new Set(world.features.map(f => f.properties.iso_a3).filter(Boolean))`
(src/unnamed/part_001, line 72): untagged features contribute nothing. -/
def geoISOSet (features : List GeoFeature) : List String :=
  features.filterMap (fun f => f.iso3)

/-- Model of `happiness.filter(d => d.iso3 && geoISOSet.has(d.iso3))`
(src/unnamed/part_001, line 73): keep only rows whose code resolved
(truthy) and is present among the tagged features. -/
def retain (geoSet : List String) (rows : List Row) : List Row :=
  rows.filter (fun r =>
    match r.iso3 with
    | some c => c ≠ "" && geoSet.contains c
    | none => false)

/-! ## Per-country grouping -/

/-- Append a row to its key's group, creating the group at the end on a
new key — the insertion behaviour of `d3.group`. -/
def addRow (c : String) (r : Row) :
    List (String × List Row) → List (String × List Row)
  | [] => [(c, [r])]
  | (k, g) :: rest =>
    if k = c then (k, g ++ [r]) :: rest
    else (k, g) :: addRow c r rest

/-- One left-to-right pass inserting each row into its group. -/
def groupInto (acc : List (String × List Row)) :
    List Row → List (String × List Row)
  | [] => acc
  | r :: rs =>
    groupInto
      (match r.iso3 with
       | some c => addRow c r acc
       | none => acc) rs

/-- Model of `d3.group(filtered, d => d.iso3)` (src/unnamed/part_001, line 76):
group rows by country code, keys in first-appearance order, each group
in original row order.  A row lacking a code is not grouped; in the
pipeline the grouping is only applied to retained rows, which all carry
one. -/
def groupByISO (rows : List Row) : List (String × List Row) :=
  groupInto [] rows

/-! ## View state -/

/-- The mutable pair: the slider's current year and the `selectedISO`
global (src/unnamed/part_001, line 17). -/
structure ViewState where
  selectedYear : Int
  selectedISO : Option String
deriving DecidableEq, Repr

/-- The two external triggers accepted after startup. -/
inductive Trigger
  | yearChange (y : Int)
  | countrySelect (iso : Option String)
deriving DecidableEq, Repr

/-- The two state mutations: the slider handler (src/unnamed/part_001,
lines 227–235) installs the new year, and the click handler (line 104)
assigns the clicked feature's code to `selectedISO`.  Neither writes the
other component. -/
def applyTrigger (s : ViewState) : Trigger → ViewState
  | .yearChange y => { s with selectedYear := y }
  | .countrySelect iso => { s with selectedISO := iso }

/-! ## Historical events -/

/-- One rendered event block: its year, the active flag, and each text
with its headline flag. -/
structure EventBlock where
  y : Int
  isActive : Bool
  texts : List (String × Bool)
deriving DecidableEq, Repr

/-- What the history pane renders: the explicit
`"Keine Ereignisse hinterlegt."` note, or the list of event blocks. -/
inductive EventsView
  | noEvents
  | blocks (l : List EventBlock)
deriving DecidableEq, Repr

/-- The comparator `(a,b) => d3.descending(a.y, b.y)`. -/
def entryGE (a b : Int × List String) : Prop := b.1 ≤ a.1

instance : DecidableRel entryGE := fun a b => Int.decLe b.1 a.1

instance : IsTotal (Int × List String) entryGE :=
  ⟨fun a b => Int.le_total b.1 a.1⟩

instance : IsTrans (Int × List String) entryGE :=
  ⟨fun _ _ _ h1 h2 => le_trans h2 h1⟩

/-- Stable descending sort of a country's `(year, texts)` entries
(src/unnamed/part_001, lines 162–164). -/
def sortDescByYear (entries : List (Int × List String)) :
    List (Int × List String) :=
  entries.insertionSort entryGE

/-- Model of `const list = filtered.length ? filtered : entries`
(src/unnamed/part_001, lines 167–168): the entries the pane renders —
the descending-sorted entries filtered to years at most the active
year, or the full sorted list when that filter empties. -/
def selectedEntries (entries : List (Int × List String)) (activeYear : Int) :
    List (Int × List String) :=
  if ((sortDescByYear entries).filter
      (fun e => decide (e.1 ≤ activeYear))).isEmpty
  then sortDescByYear entries
  else (sortDescByYear entries).filter (fun e => decide (e.1 ≤ activeYear))

/-- One rendered entry (src/unnamed/part_001, lines 170–184):
`isActive = (y === activeYear)`, and text `i` carries the headline flag
`isActive && i === 0`. -/
def renderBlock (activeYear : Int) (e : Int × List String) : EventBlock :=
  { y := e.1, isActive := e.1 == activeYear,
    texts := e.2.enum.map (fun p => (p.2, e.1 == activeYear && p.1 == 0)) }

/-- Lines 162–184 of src/unnamed/part_001: render every selected
entry. -/
def renderBlocks (entries : List (Int × List String)) (activeYear : Int) :
    List EventBlock :=
  (selectedEntries entries activeYear).map (renderBlock activeYear)

/-- The history pane (src/unnamed/part_001, lines 156–187): the
`eventsData[iso3]` truthiness test selects between the rendered blocks
and the explicit no-events note. -/
def visibleEvents (log : List (String × List (Int × List String)))
    (c : String) (activeYear : Int) : EventsView :=
  match log.lookup c with
  | none => .noEvents
  | some entries => .blocks (renderBlocks entries activeYear)

/-! ## The detail panel -/

/-- The list `factorKeys` in source order. -/
def factorKeysList : List FactorKey :=
  [.gdp, .social, .healthy, .freedom, .generosity, .corruption]

/-- The content the panel renders: header, ladder figure, factor bars
(value and scale maximum per key), period-comparison chart, and the
event pane. -/
structure PanelView where
  title : String
  ladderText : Option ℚ
  factorBars : List (FactorKey × ℚ × ℚ)
  covid : CovidView
  events : EventsView
deriving DecidableEq, Repr

/-- Model of `showCountryPanel` (src/unnamed/part_001, lines 112–190) as a
function from the previously rendered panel content to the new content.
The guard at line 113 (`if (!iso3 || !byISO.has(iso3)) return;`) returns
with the previous content untouched.  The outer `Option` is `none` where
the original code would throw: with an empty series the year lookup
leaves `row` `undefined` and `row[f.key]` at line 141 is a TypeError. -/
def showCountryPanel (byISO : List (String × List Row))
    (log : List (String × List (Int × List String)))
    (fm : FactorKey → ℚ) (iso3 : Option String) (displayName : String)
    (year : Int) (prev : PanelView) : Option PanelView :=
  match iso3 with
  | none => some prev
  | some c =>
    match byISO.lookup c with
    | none => some prev
    | some rows0 =>
      match lookupYear rows0 year with
      | none => none
      | some row =>
        some { title := displayName,
               ladderText :=
                 match row.ladder with
                 | none => none
                 | some v => if v = 0 then none else some v,
               factorBars := factorKeysList.map (fun k =>
                 (k, (factorValue k row).getD 0, fm k)),
               covid := drawCovidComparison (sortByYear rows0),
               events := visibleEvents log c year }

/-! ## Lemmas about the sorted series and the lookup chain -/

lemma sortByYear_sorted (rows : List Row) :
    List.Sorted yearLE (sortByYear rows) :=
  List.sorted_insertionSort _ _

lemma mem_sortByYear {rows : List Row} {a : Row} :
    a ∈ sortByYear rows ↔ a ∈ rows :=
  List.mem_insertionSort _

lemma sortByYear_eq_nil_iff {rows : List Row} :
    sortByYear rows = [] ↔ rows = [] := by
  unfold sortByYear
  rw [← List.length_eq_zero (l := rows.insertionSort yearLE),
    List.length_insertionSort, List.length_eq_zero]

lemma mem_of_getLast?_eq_some {α : Type} {l : List α} {a : α}
    (h : l.getLast? = some a) : a ∈ l := by
  obtain ⟨hne, rfl⟩ := List.mem_getLast?_eq_getLast (Option.mem_def.mpr h)
  exact List.getLast_mem hne

/-- Lemma: `find?` returns the first match: the list splits at the result and
everything before it fails the predicate. -/
lemma find?_eq_some_split {α : Type} (p : α → Bool) :
    ∀ {l : List α} {a : α}, l.find? p = some a →
      ∃ l₁ l₂, l = l₁ ++ a :: l₂ ∧ ∀ x ∈ l₁, p x = false
  | [], _, h => by simp [List.find?] at h
  | b :: t, a, h => by
    by_cases hb : p b = true
    · rw [List.find?_cons_of_pos _ hb] at h
      cases h
      exact ⟨[], t, rfl, by simp⟩
    · rw [List.find?_cons_of_neg _ hb] at h
      obtain ⟨l₁, l₂, rfl, hl₁⟩ := find?_eq_some_split p h
      refine ⟨b :: l₁, l₂, rfl, ?_⟩
      intro x hx
      rcases List.mem_cons.mp hx with rfl | hx
      · exact Bool.not_eq_true _ ▸ hb
      · exact hl₁ x hx

/-- In an ascending-sorted series the last element has the largest
year. -/
lemma sorted_getLast?_le :
    ∀ {s : List Row}, List.Sorted yearLE s → ∀ {b : Row},
      s.getLast? = some b → ∀ a ∈ s, a.year ≤ b.year
  | [], _, _, hb => by simp at hb
  | [x], _, b, hb => by
    simp at hb
    subst hb
    intro a ha
    simp at ha
    subst ha
    exact le_refl _
  | x :: y :: t, hs, b, hb => by
    rw [List.getLast?_cons_cons] at hb
    have hs1 := List.sorted_cons.mp hs
    intro a ha
    rcases List.mem_cons.mp ha with rfl | ha2
    · exact hs1.1 b (mem_of_getLast?_eq_some hb)
    · exact sorted_getLast?_le hs1.2 hb a ha2

/-- The lookup chain resolves nothing exactly on the empty series. -/
lemma lookupYear_eq_none_iff {rows : List Row} {q : Int} :
    lookupYear rows q = none ↔ rows = [] := by
  constructor
  · intro h
    unfold lookupYear at h
    cases h1 : (sortByYear rows).find? (fun r => r.year == q) with
    | some o =>
      rw [h1] at h
      simp [Option.orElse] at h
    | none =>
      rw [h1] at h
      cases h2 : (sortByYear rows).reverse.find? (fun r => decide (r.year ≤ q)) with
      | some o =>
        rw [h2] at h
        simp [Option.orElse] at h
      | none =>
        rw [h2] at h
        simp [Option.orElse] at h
        exact sortByYear_eq_nil_iff.mp h
  · intro h
    subst h
    rfl

lemma lookupYear_isSome_of_ne_nil {rows : List Row} {q : Int}
    (h : rows ≠ []) : (lookupYear rows q).isSome := by
  cases hl : lookupYear rows q with
  | none => exact absurd (lookupYear_eq_none_iff.mp hl) h
  | some o => rfl

/-- Step 1 of the lookup policy: an exact-year observation exists, and
the chain returns the first one in the sorted series. -/
lemma lookupYear_exact {rows : List Row} {q : Int}
    (h : ∃ r ∈ rows, r.year = q) :
    ∃ o l₁ l₂, lookupYear rows q = some o ∧ o.year = q ∧
      sortByYear rows = l₁ ++ o :: l₂ ∧ ∀ x ∈ l₁, x.year ≠ q := by
  obtain ⟨r, hr, hy⟩ := h
  have hmem : r ∈ sortByYear rows := mem_sortByYear.mpr hr
  cases h1 : (sortByYear rows).find? (fun r => r.year == q) with
  | none =>
    exfalso
    have := List.find?_eq_none.mp h1 r hmem
    simp [hy] at this
  | some o =>
    obtain ⟨l₁, l₂, hsplit, hfail⟩ := find?_eq_some_split _ h1
    refine ⟨o, l₁, l₂, ?_, ?_, hsplit, ?_⟩
    · unfold lookupYear
      rw [h1]
      rfl
    · have := List.find?_some h1
      simpa using this
    · intro x hx
      have := hfail x hx
      simpa using this

/-- Step 2 of the lookup policy: no exact year, but a strictly earlier
observation exists; the chain returns one with the largest year below
the query. -/
lemma lookupYear_prior {rows : List Row} {q : Int}
    (hnoex : ∀ r ∈ rows, r.year ≠ q) (hex : ∃ r ∈ rows, r.year < q) :
    ∃ o, lookupYear rows q = some o ∧ o ∈ rows ∧ o.year < q ∧
      ∀ x ∈ rows, x.year < q → x.year ≤ o.year := by
  have h1 : (sortByYear rows).find? (fun r => r.year == q) = none := by
    rw [List.find?_eq_none]
    intro x hx
    simpa using hnoex x (mem_sortByYear.mp hx)
  obtain ⟨r, hr, hy⟩ := hex
  cases h2 : (sortByYear rows).reverse.find? (fun r => decide (r.year ≤ q)) with
  | none =>
    exfalso
    have hmem : r ∈ (sortByYear rows).reverse := by
      rw [List.mem_reverse]
      exact mem_sortByYear.mpr hr
    have := List.find?_eq_none.mp h2 r hmem
    simp at this
    omega
  | some o =>
    have hole : lookupYear rows q = some o := by
      unfold lookupYear
      simp only [h1, h2, Option.orElse]
    have homem : o ∈ rows :=
      mem_sortByYear.mp (List.mem_reverse.mp (List.mem_of_find?_eq_some h2))
    have holey : o.year ≤ q := by simpa using List.find?_some h2
    have holt : o.year < q := lt_of_le_of_ne holey (hnoex o homem)
    refine ⟨o, hole, homem, holt, ?_⟩
    intro x hx hxq
    obtain ⟨l₁, l₂, hsplit, hfail⟩ := find?_eq_some_split _ h2
    have hxrev : x ∈ (sortByYear rows).reverse := by
      rw [List.mem_reverse]
      exact mem_sortByYear.mpr hx
    rw [hsplit] at hxrev
    rcases List.mem_append.mp hxrev with hx1 | hx2
    · exfalso
      have := hfail x hx1
      simp at this
      omega
    · rcases List.mem_cons.mp hx2 with rfl | hx3
      · exact le_refl _
      · have hrev : (sortByYear rows).reverse.Pairwise
            (fun a b => b.year ≤ a.year) := by
          rw [List.pairwise_reverse]
          exact sortByYear_sorted rows
        rw [hsplit] at hrev
        have hpair := (List.pairwise_append.mp hrev).2.1
        exact (List.pairwise_cons.mp hpair).1 x hx3

/-- Step 3 of the lookup policy: the query year precedes every
observation; the chain falls back to the last element of the sorted
series, the one with the largest year. -/
lemma lookupYear_fallback {rows : List Row} {q : Int}
    (hall : ∀ r ∈ rows, q < r.year) (hne : rows ≠ []) :
    ∃ o, lookupYear rows q = some o ∧ o ∈ rows ∧
      ∀ x ∈ rows, x.year ≤ o.year := by
  have h1 : (sortByYear rows).find? (fun r => r.year == q) = none := by
    rw [List.find?_eq_none]
    intro x hx
    have := hall x (mem_sortByYear.mp hx)
    simp
    omega
  have h2 : (sortByYear rows).reverse.find? (fun r => decide (r.year ≤ q)) = none := by
    rw [List.find?_eq_none]
    intro x hx
    have := hall x (mem_sortByYear.mp (List.mem_reverse.mp hx))
    simp
    omega
  have hs : sortByYear rows ≠ [] := fun h => hne (sortByYear_eq_nil_iff.mp h)
  cases hl : (sortByYear rows).getLast? with
  | none => exact absurd (List.getLast?_eq_none_iff.mp hl) hs
  | some b =>
    refine ⟨b, ?_, mem_sortByYear.mp (mem_of_getLast?_eq_some hl), ?_⟩
    · unfold lookupYear
      simp only [h1, h2, hl, Option.orElse]
    · intro x hx
      exact sorted_getLast?_le (sortByYear_sorted rows) hl x (mem_sortByYear.mpr hx)

/-- Claim C2: For every series, `lookupYear` returns the first observation
of the ascending-sorted series whose year equals the query year if one
exists; otherwise an observation with the largest year strictly below
the query year; otherwise (the query precedes all years) an observation
with the largest year in the series; and it returns `none` exactly when
the series is empty. -/
theorem lookupYear_policy (rows : List Row) (q : Int) :
    (lookupYear rows q = none ↔ rows = []) ∧
    ((∃ r ∈ rows, r.year = q) →
      ∃ o l₁ l₂, lookupYear rows q = some o ∧ o.year = q ∧
        sortByYear rows = l₁ ++ o :: l₂ ∧ ∀ x ∈ l₁, x.year ≠ q) ∧
    ((∀ r ∈ rows, r.year ≠ q) → (∃ r ∈ rows, r.year < q) →
      ∃ o, lookupYear rows q = some o ∧ o ∈ rows ∧ o.year < q ∧
        ∀ x ∈ rows, x.year < q → x.year ≤ o.year) ∧
    ((∀ r ∈ rows, q < r.year) → rows ≠ [] →
      ∃ o, lookupYear rows q = some o ∧ o ∈ rows ∧
        ∀ x ∈ rows, x.year ≤ o.year) :=
  ⟨lookupYear_eq_none_iff, lookupYear_exact, lookupYear_prior,
    lookupYear_fallback⟩

/-- Witness for C2: on the concrete two-year series the prior-year
branch fires and returns the 2015 observation. -/
theorem lookupYear_policy_witness :
    ∃ o, lookupYear [mkRow "AUT" 2015 1 (some 7),
        mkRow "AUT" 2017 2 (some 6)] 2016 = some o ∧
      o ∈ [mkRow "AUT" 2015 1 (some 7), mkRow "AUT" 2017 2 (some 6)] ∧
      o.year < 2016 ∧
      ∀ x ∈ [mkRow "AUT" 2015 1 (some 7), mkRow "AUT" 2017 2 (some 6)],
        x.year < 2016 → x.year ≤ o.year :=
  (lookupYear_policy [mkRow "AUT" 2015 1 (some 7),
    mkRow "AUT" 2017 2 (some 6)] 2016).2.2.1 (by decide) (by decide)

/-! ## The concrete example series {2015, 2017, 2020} -/

def obs2015 : Row := mkRow "AUT" 2015 1 (some 7)

def obs2017 : Row := mkRow "AUT" 2017 2 (some 6)

def obs2020 : Row := mkRow "AUT" 2020 3 (some 5)

def exampleSeries : List Row := [obs2015, obs2017, obs2020]

/-- Counterexample to claim C3: On the series with years {2015, 2017, 2020},
a 2014 query (preceding all data) resolves the 2020 observation — the
one with the largest year, `rows[rows.length - 1]` — not the 2015
observation the claim names. -/
theorem lookupYear_before_all_counterexample :
    lookupYear exampleSeries 2014 = some obs2020 ∧ obs2020 ≠ obs2015 := by
  decide

/-- Amended claim C3: On the series with years {2015, 2017, 2020}:
lookup 2016 returns 2015's observation, lookup 2014 (preceding all
data) returns 2020's observation (the largest year in the series, per
the final fallback), lookup 2020 returns the exact 2020 observation,
and lookup 2025 returns 2020's observation. -/
theorem lookupYear_example_years :
    lookupYear exampleSeries 2016 = some obs2015 ∧
    lookupYear exampleSeries 2014 = some obs2020 ∧
    lookupYear exampleSeries 2020 = some obs2020 ∧
    lookupYear exampleSeries 2025 = some obs2020 := by
  decide

/-! ## Map-fill lemmas -/

lemma mem_yearRankPairs {hap : List Row} {y : Int}
    {p : Option String × Int} :
    p ∈ yearRankPairs hap y ↔ ∃ r ∈ hap, r.year = y ∧ p = (r.iso3, r.rank) := by
  unfold yearRankPairs
  simp only [List.mem_map, List.mem_filter]
  constructor
  · rintro ⟨r, ⟨hr, hy⟩, rfl⟩
    exact ⟨r, hr, by simpa using hy, rfl⟩
  · rintro ⟨r, hr, hy, rfl⟩
    exact ⟨r, ⟨hr, by simpa using hy⟩, rfl⟩

lemma lastRank_eq_none_iff {pairs : List (Option String × Int)}
    {k : Option String} :
    lastRank pairs k = none ↔ ∀ p ∈ pairs, p.1 ≠ k := by
  unfold lastRank
  rw [List.getLast?_eq_none_iff, List.map_eq_nil_iff, List.filter_eq_nil_iff]
  simp

lemma lastRank_eq_some {pairs : List (Option String × Int)}
    {k : Option String} {rk : Int} (h : lastRank pairs k = some rk) :
    ∃ p ∈ pairs, p.1 = k ∧ p.2 = rk := by
  unfold lastRank at h
  obtain ⟨p, hp, hp2⟩ := List.mem_map.mp (mem_of_getLast?_eq_some h)
  have := List.mem_filter.mp hp
  exact ⟨p, this.1, by simpa using this.2, hp2⟩

/-- Counterexample to claim C1: A retained country whose only observation is
for 2015: at selected year 2016 the year lookup resolves that fallback
observation (rank 1), yet `drawMap` renders the neutral fill — the fill
is an exact-year match, not the lookup, so the claim's "neutral only
when the lookup resolves no observation" fails. -/
theorem mapFill_ignores_fallback_counterexample :
    mapFill [mkRow "AUT" 2015 1 (some 7)] 2016 (some "AUT") = Fill.neutral ∧
    lookupYear [mkRow "AUT" 2015 1 (some 7)] 2016 =
      some (mkRow "AUT" 2015 1 (some 7)) := by
  decide

/-- Amended claim C1: The map's per-country fill is recomputed from an
exact-year match at the selected year: with every rank positive (ranks
are ordinals starting at 1), a retained country renders the neutral fill
iff it has no observation whose year equals the selected year, a colored
fill always comes from such an exact-year observation's rank, and a
feature with no country code renders the neutral fill whenever every
retained row carries a code. -/
theorem mapFill_exact_year (hap : List Row) (y : Int) (c : String)
    (hpos : ∀ r ∈ hap, 0 < r.rank) :
    (mapFill hap y (some c) = Fill.neutral ↔
      ∀ r ∈ hap, r.iso3 = some c → r.year ≠ y) ∧
    (∀ k, mapFill hap y (some c) = Fill.colored k →
      ∃ r ∈ hap, r.iso3 = some c ∧ r.year = y ∧ r.rank = k) ∧
    ((∀ r ∈ hap, r.iso3.isSome) → mapFill hap y none = Fill.neutral) := by
  refine ⟨⟨?_, ?_⟩, ?_, ?_⟩
  · intro h r hr hiso hy
    unfold mapFill at h
    cases hlr : lastRank (yearRankPairs hap y) (some c) with
    | none =>
      have := lastRank_eq_none_iff.mp hlr (r.iso3, r.rank)
        (mem_yearRankPairs.mpr ⟨r, hr, hy, rfl⟩)
      exact this (by simpa using hiso)
    | some rk =>
      rw [hlr] at h
      simp at h
      obtain ⟨p, hp, _, hp2⟩ := lastRank_eq_some hlr
      obtain ⟨r', hr', _, rfl⟩ := mem_yearRankPairs.mp hp
      have hrk : (0 : Int) < rk := hp2 ▸ hpos r' hr'
      omega
  · intro hno
    unfold mapFill
    have : lastRank (yearRankPairs hap y) (some c) = none := by
      rw [lastRank_eq_none_iff]
      intro p hp
      obtain ⟨r, hr, hy, rfl⟩ := mem_yearRankPairs.mp hp
      intro hiso
      exact hno r hr hiso hy
    rw [this]
  · intro k h
    unfold mapFill at h
    cases hlr : lastRank (yearRankPairs hap y) (some c) with
    | none =>
      rw [hlr] at h
      simp at h
    | some rk =>
      rw [hlr] at h
      simp at h
      obtain ⟨p, hp, hp1, hp2⟩ := lastRank_eq_some hlr
      obtain ⟨r, hr, hy, rfl⟩ := mem_yearRankPairs.mp hp
      have hrk : r.rank = rk := hp2
      by_cases h0 : rk = 0
      · rw [if_pos h0] at h
        exact absurd h (by simp)
      · rw [if_neg h0] at h
        have hk : rk = k := by
          simpa using h
        exact ⟨r, hr, by simpa using hp1, hy, by omega⟩
  · intro hall
    unfold mapFill
    have : lastRank (yearRankPairs hap y) none = none := by
      rw [lastRank_eq_none_iff]
      intro p hp
      obtain ⟨r, hr, _, rfl⟩ := mem_yearRankPairs.mp hp
      have := hall r hr
      cases hi : r.iso3 with
      | none => rw [hi] at this; simp at this
      | some c => simp [hi]
    rw [this]

/-- Witness for C1 (amended) at a concrete dataset with a single
rank-1 observation for 2015. -/
theorem mapFill_exact_year_witness :
    (mapFill [mkRow "AUT" 2015 1 (some 7)] 2015 (some "AUT") = Fill.neutral ↔
      ∀ r ∈ [mkRow "AUT" 2015 1 (some 7)], r.iso3 = some "AUT" → r.year ≠ 2015) ∧
    (∀ k, mapFill [mkRow "AUT" 2015 1 (some 7)] 2015 (some "AUT") = Fill.colored k →
      ∃ r ∈ [mkRow "AUT" 2015 1 (some 7)], r.iso3 = some "AUT" ∧ r.year = 2015 ∧ r.rank = k) ∧
    ((∀ r ∈ [mkRow "AUT" 2015 1 (some 7)], r.iso3.isSome) →
      mapFill [mkRow "AUT" 2015 1 (some 7)] 2015 none = Fill.neutral) :=
  mapFill_exact_year [mkRow "AUT" 2015 1 (some 7)] 2015 "AUT" (by decide)

/-! ## Factor-maxima lemmas -/

lemma jsMax_eq_none_iff {vals : List ℚ} : jsMax vals = none ↔ vals = [] := by
  cases vals with
  | nil => simp [jsMax]
  | cons v vs => cases h : jsMax vs <;> simp [jsMax, h]

lemma jsMax_spec :
    ∀ {vals : List ℚ} {m : ℚ}, jsMax vals = some m →
      m ∈ vals ∧ ∀ v ∈ vals, v ≤ m
  | [], _, h => by simp [jsMax] at h
  | v :: vs, m, h => by
    cases hm : jsMax vs with
    | none =>
      have hnil : vs = [] := jsMax_eq_none_iff.mp hm
      subst hnil
      simp [jsMax] at h
      subst h
      simp
    | some m2 =>
      simp only [jsMax, hm] at h
      simp at h
      obtain ⟨hmem, hub⟩ := jsMax_spec hm
      constructor
      · rcases max_choice v m2 with hc | hc <;> rw [← h, hc]
        · simp
        · simp [hmem]
      · intro x hx
        rcases List.mem_cons.mp hx with rfl | hx2
        · rw [← h]
          exact le_max_left _ _
        · rw [← h]
          exact le_trans (hub x hx2) (le_max_right _ _)

lemma jsMax_isSome_of_ne_nil {vals : List ℚ} (h : vals ≠ []) :
    ∃ m, jsMax vals = some m := by
  cases hm : jsMax vals with
  | none => exact absurd (jsMax_eq_none_iff.mp hm) h
  | some m => exact ⟨m, rfl⟩

/-- A row whose only populated factor is the GDP column. -/
def rowWithGdp (y : Int) (v : Option ℚ) : Row :=
  { mkRow "AUT" y 1 none with gdp := v }

/-- Counterexample to claim C4: With one null GDP value and one value `-2`,
the code's `d[f.key] ?? 0` turns the null into a competing `0`, the
maximum becomes `0`, and `|| 1` then yields `1` — while the maximum over
non-null values (nulls ignored, as the claim states) is `-2`. -/
theorem factorMax_nulls_as_zero_counterexample :
    factorMax [rowWithGdp 2015 none, rowWithGdp 2016 (some (-2))]
      FactorKey.gdp = 1 ∧
    factorMaxClaim [rowWithGdp 2015 none, rowWithGdp 2016 (some (-2))]
      FactorKey.gdp = -2 ∧
    (1 : ℚ) ≠ -2 := by
  decide

lemma factorMax_eq_of_some {obs : List Row} {k : FactorKey} {m : ℚ}
    (hm : jsMax (obs.map (fun r => (factorValue k r).getD 0)) = some m) :
    factorMax obs k = if m = 0 then 1 else m := by
  unfold factorMax
  rw [hm]

lemma factorMax_eq_of_none {obs : List Row} {k : FactorKey}
    (hm : jsMax (obs.map (fun r => (factorValue k r).getD 0)) = none) :
    factorMax obs k = 1 := by
  unfold factorMax
  rw [hm]

lemma factorMaxClaim_eq_of_some {obs : List Row} {k : FactorKey} {m : ℚ}
    (hm : jsMax (obs.filterMap (factorValue k)) = some m) :
    factorMaxClaim obs k = m := by
  unfold factorMaxClaim
  rw [hm]

/-- Amended claim C4: For each factor key, `factorMax` is the maximum
over all retained observations of the value with null coerced to `0`,
with a falsy (zero or undefined) maximum defaulting to `1`.
Consequently: it bounds every non-null value from above; it is `1` when
every value is null; it agrees with the claim's null-ignoring maximum
whenever at least one value is positive (so nulls only distort the
maximum on datasets whose values are all non-positive); and it is either
the default `1` or a value attained by some observation. -/
theorem factorMax_spec (obs : List Row) (k : FactorKey) :
    (∀ r ∈ obs, ∀ v, factorValue k r = some v → v ≤ factorMax obs k) ∧
    ((∀ r ∈ obs, factorValue k r = none) → factorMax obs k = 1) ∧
    ((∃ r ∈ obs, ∃ v, factorValue k r = some v ∧ 0 < v) →
      factorMax obs k = factorMaxClaim obs k) ∧
    (factorMax obs k = 1 ∨
      ∃ r ∈ obs, factorValue k r = some (factorMax obs k)) := by
  refine ⟨?_, ?_, ?_, ?_⟩
  · intro r hr v hv
    cases hm : jsMax (obs.map (fun r => (factorValue k r).getD 0)) with
    | none =>
      exfalso
      rw [jsMax_eq_none_iff, List.map_eq_nil_iff] at hm
      subst hm
      simp at hr
    | some m =>
      rw [factorMax_eq_of_some hm]
      have hvL : v ∈ obs.map (fun r => (factorValue k r).getD 0) :=
        List.mem_map.mpr ⟨r, hr, by rw [hv]; rfl⟩
      have hvm : v ≤ m := (jsMax_spec hm).2 v hvL
      by_cases h0 : m = 0
      · rw [if_pos h0]
        calc v ≤ m := hvm
          _ ≤ 1 := by rw [h0]; norm_num
      · rw [if_neg h0]
        exact hvm
  · intro hall
    cases hm : jsMax (obs.map (fun r => (factorValue k r).getD 0)) with
    | none => exact factorMax_eq_of_none hm
    | some m =>
      obtain ⟨r, hr, hrm⟩ := List.mem_map.mp (jsMax_spec hm).1
      rw [hall r hr] at hrm
      simp at hrm
      rw [factorMax_eq_of_some hm, if_pos hrm.symm]
  · rintro ⟨r, hr, v, hv, hvpos⟩
    have hvL : v ∈ obs.map (fun r => (factorValue k r).getD 0) :=
      List.mem_map.mpr ⟨r, hr, by rw [hv]; rfl⟩
    obtain ⟨M, hM⟩ := @jsMax_isSome_of_ne_nil
      (obs.map (fun r => (factorValue k r).getD 0))
      (fun h => by rw [h] at hvL; simp at hvL)
    have hvC : v ∈ obs.filterMap (factorValue k) :=
      List.mem_filterMap.mpr ⟨r, hr, hv⟩
    obtain ⟨M2, hM2⟩ := @jsMax_isSome_of_ne_nil
      (obs.filterMap (factorValue k))
      (fun h => by rw [h] at hvC; simp at hvC)
    have hMv : v ≤ M := (jsMax_spec hM).2 v hvL
    have hMpos : 0 < M := lt_of_lt_of_le hvpos hMv
    have h21 : M2 ≤ M := by
      obtain ⟨r2, hr2, hv2⟩ := List.mem_filterMap.mp (jsMax_spec hM2).1
      exact (jsMax_spec hM).2 M2
        (List.mem_map.mpr ⟨r2, hr2, by rw [hv2]; rfl⟩)
    have h12 : M ≤ M2 := by
      obtain ⟨r2, hr2, hv2⟩ := List.mem_map.mp (jsMax_spec hM).1
      cases hf : factorValue k r2 with
      | none =>
        exfalso
        rw [hf] at hv2
        simp at hv2
        rw [← hv2] at hMpos
        exact lt_irrefl 0 hMpos
      | some w =>
        have : w = M := by rw [hf] at hv2; simpa using hv2
        subst this
        exact (jsMax_spec hM2).2 w (List.mem_filterMap.mpr ⟨r2, hr2, hf⟩)
    have hMM : M = M2 := le_antisymm h12 h21
    rw [factorMax_eq_of_some hM, factorMaxClaim_eq_of_some hM2,
      if_neg (by intro h; rw [h] at hMpos; exact lt_irrefl 0 hMpos), hMM]
  · cases hm : jsMax (obs.map (fun r => (factorValue k r).getD 0)) with
    | none => exact Or.inl (factorMax_eq_of_none hm)
    | some m =>
      rw [factorMax_eq_of_some hm]
      by_cases h0 : m = 0
      · rw [if_pos h0]
        exact Or.inl rfl
      · rw [if_neg h0]
        obtain ⟨r, hr, hrm⟩ := List.mem_map.mp (jsMax_spec hm).1
        refine Or.inr ⟨r, hr, ?_⟩
        cases hf : factorValue k r with
        | none =>
          exfalso
          rw [hf] at hrm
          simp at hrm
          exact h0 hrm.symm
        | some w =>
          rw [hf] at hrm
          simp at hrm
          rw [hrm]

/-- Witness for C4 (amended): the all-null default and the agreement
with the null-ignoring maximum on the spec's `[3, null, 7]` dataset. -/
theorem factorMax_spec_witness :
    factorMax [rowWithGdp 2015 none] FactorKey.gdp = 1 ∧
    factorMax [rowWithGdp 2015 (some 3), rowWithGdp 2016 none,
        rowWithGdp 2017 (some 7)] FactorKey.gdp =
      factorMaxClaim [rowWithGdp 2015 (some 3), rowWithGdp 2016 none,
        rowWithGdp 2017 (some 7)] FactorKey.gdp :=
  ⟨(factorMax_spec [rowWithGdp 2015 none] FactorKey.gdp).2.1 (by decide),
   (factorMax_spec [rowWithGdp 2015 (some 3), rowWithGdp 2016 none,
       rowWithGdp 2017 (some 7)] FactorKey.gdp).2.2.1
     ⟨rowWithGdp 2015 (some 3), by decide, 3, by decide, by decide⟩⟩

/-! ## Period-average lemmas -/

lemma jsMean_eq_none_iff {vals : List ℚ} : jsMean vals = none ↔ vals = [] := by
  cases vals with
  | nil => simp [jsMean]
  | cons v vs => simp [jsMean]

lemma periodAverage_eq_jsMean (rows : List Row) (lo : Int) (hi : Option Int) :
    periodAverage rows lo hi = jsMean (qualifyingLadders rows lo hi) := by
  unfold periodAverage qualifyingLadders
  by_cases h : (rows.filter (inRangeB lo hi)).isEmpty
  · rw [if_pos h]
    have hnil : rows.filter (inRangeB lo hi) = [] := by
      simpa [List.isEmpty_iff] using h
    rw [hnil]
    rfl
  · rw [if_neg h]

/-- Claim C6: `periodAverage` is the `d3.mean` of the non-null ladder
scores of the observations in the inclusive year range, and is `none`
exactly when no in-range observation has a non-null ladder; the chart is
the explicit no-data state exactly when both fixed period averages
(pre = [2015, 2019] and post = [2020, +∞)) are `none`, and every
rendered bar carries the `some`-value of its period average — a `none`
average is never rendered (in particular not as zero). -/
theorem drawCovidComparison_spec (rows : List Row) (lo : Int)
    (hi : Option Int) :
    (periodAverage rows lo hi = jsMean (qualifyingLadders rows lo hi)) ∧
    (periodAverage rows lo hi = none ↔
      ∀ r ∈ rows, inRangeB lo hi r = true → r.ladder = none) ∧
    (drawCovidComparison rows = CovidView.noData ↔
      (periodAverage rows 2015 (some 2019) = none ∧
        periodAverage rows 2020 none = none)) ∧
    (∀ l s v, drawCovidComparison rows = CovidView.bars l → (s, v) ∈ l →
      (s = preLabel ∧ periodAverage rows 2015 (some 2019) = some v) ∨
      (s = postLabel ∧ periodAverage rows 2020 none = some v)) := by
  refine ⟨periodAverage_eq_jsMean rows lo hi, ?_, ?_, ?_⟩
  · rw [periodAverage_eq_jsMean, jsMean_eq_none_iff]
    unfold qualifyingLadders
    rw [List.filterMap_eq_nil_iff]
    constructor
    · intro h r hr hin
      exact h r (List.mem_filter.mpr ⟨hr, hin⟩)
    · intro h r hr
      exact h r (List.mem_filter.mp hr).1 (List.mem_filter.mp hr).2
  · by_cases hc : periodAverage rows 2015 (some 2019) = none ∧
        periodAverage rows 2020 none = none
    · constructor
      · intro _
        exact hc
      · intro _
        simp only [drawCovidComparison]
        rw [if_pos hc]
    · constructor
      · intro h
        simp only [drawCovidComparison] at h
        rw [if_neg hc] at h
        simp at h
      · intro h
        exact absurd h hc
  · intro l s v hbar hmem
    by_cases hc : periodAverage rows 2015 (some 2019) = none ∧
        periodAverage rows 2020 none = none
    · simp only [drawCovidComparison] at hbar
      rw [if_pos hc] at hbar
      simp at hbar
    · simp only [drawCovidComparison] at hbar
      rw [if_neg hc] at hbar
      simp only [CovidView.bars.injEq] at hbar
      subst hbar
      cases hpre : periodAverage rows 2015 (some 2019) with
      | none =>
        cases hpost : periodAverage rows 2020 none with
        | none => exact absurd ⟨hpre, hpost⟩ hc
        | some b =>
          rw [hpre, hpost] at hmem
          simp [List.filterMap] at hmem
          exact Or.inr ⟨hmem.1, by rw [hmem.2]⟩
      | some a =>
        cases hpost : periodAverage rows 2020 none with
        | none =>
          rw [hpre, hpost] at hmem
          simp [List.filterMap] at hmem
          exact Or.inl ⟨hmem.1, by rw [hmem.2]⟩
        | some b =>
          rw [hpre, hpost] at hmem
          simp [List.filterMap] at hmem
          rcases hmem with ⟨hs, hv⟩ | ⟨hs, hv⟩
          · exact Or.inl ⟨hs, by rw [hv]⟩
          · exact Or.inr ⟨hs, by rw [hv]⟩

/-- Witness for C6 at a one-observation series: the rendered pre-period
bar carries exactly the `some`-average. -/
theorem drawCovidComparison_spec_witness :
    (preLabel = preLabel ∧
      periodAverage [obs2015] 2015 (some 2019) = some 7) ∨
    (preLabel = postLabel ∧ periodAverage [obs2015] 2020 none = some 7) :=
  (drawCovidComparison_spec [obs2015] 2015 (some 2019)).2.2.2
    [(preLabel, 7)] preLabel 7
    (by
      norm_num [drawCovidComparison, periodAverage, jsMean, inRangeB,
        obs2015, mkRow, List.filterMap]
      intro h
      simp at h)
    (by simp)

/-! ## Event-filter lemmas -/

lemma renderBlock_y (y : Int) (e : Int × List String) :
    (renderBlock y e).y = e.1 := rfl

lemma renderBlock_texts_fst (y : Int) (e : Int × List String) :
    (renderBlock y e).texts.map Prod.fst = e.2 := by
  unfold renderBlock
  rw [List.map_map]
  have : (Prod.fst ∘ fun p : Nat × String =>
      (p.2, e.1 == y && p.1 == 0)) = Prod.snd := by
    funext p
    rfl
  rw [this, List.enum_map_snd]

lemma renderBlock_isActive (y : Int) (e : Int × List String) :
    ((renderBlock y e).isActive = true ↔ (renderBlock y e).y = y) := by
  simp [renderBlock]

lemma renderBlock_headline (y : Int) (e : Int × List String) (i : Nat)
    (h : i < (renderBlock y e).texts.length) :
    (((renderBlock y e).texts.get ⟨i, h⟩).2 = true ↔
      ((renderBlock y e).y = y ∧ i = 0)) := by
  have hi : i < e.2.enum.length := by
    simpa [renderBlock] using h
  simp [renderBlock, List.get_eq_getElem, List.getElem_map,
    List.getElem_enum e.2 i hi, Bool.and_eq_true]

lemma selectedEntries_pairwise (entries : List (Int × List String))
    (y : Int) : (selectedEntries entries y).Pairwise entryGE := by
  have hsorted : (sortDescByYear entries).Pairwise entryGE :=
    List.sorted_insertionSort entryGE entries
  unfold selectedEntries
  by_cases h : ((sortDescByYear entries).filter
      (fun e => decide (e.1 ≤ y))).isEmpty
  · rw [if_pos h]
    exact hsorted
  · rw [if_neg h]
    exact hsorted.sublist (List.filter_sublist _)

lemma mem_sortDescByYear {entries : List (Int × List String)}
    {e : Int × List String} : e ∈ sortDescByYear entries ↔ e ∈ entries :=
  List.mem_insertionSort _

lemma selectedEntries_of_exists {entries : List (Int × List String)}
    {y : Int} (hex : ∃ e ∈ entries, e.1 ≤ y) :
    selectedEntries entries y =
      (sortDescByYear entries).filter (fun e => decide (e.1 ≤ y)) := by
  obtain ⟨e, he, hey⟩ := hex
  have hmem : e ∈ (sortDescByYear entries).filter
      (fun e => decide (e.1 ≤ y)) :=
    List.mem_filter.mpr ⟨mem_sortDescByYear.mpr he, by simpa using hey⟩
  unfold selectedEntries
  rw [if_neg]
  intro hempty
  rw [List.isEmpty_iff] at hempty
  rw [hempty] at hmem
  simp at hmem

lemma selectedEntries_of_forall {entries : List (Int × List String)}
    {y : Int} (hall : ∀ e ∈ entries, y < e.1) :
    selectedEntries entries y = sortDescByYear entries := by
  have hnil : (sortDescByYear entries).filter
      (fun e => decide (e.1 ≤ y)) = [] := by
    rw [List.filter_eq_nil_iff]
    intro e he
    have := hall e (mem_sortDescByYear.mp he)
    simp
    omega
  unfold selectedEntries
  rw [if_pos]
  rw [List.isEmpty_iff]
  exact hnil

/-- Claim C5: `visibleEvents` reports the explicit no-events state exactly
when the country is absent from the event log; otherwise it renders the
country's entries sorted descending by year and filtered to years at
most the active year — falling back to the full descending-sorted list
when that filter yields nothing — with an entry marked active iff its
year equals the active year exactly and only the first text of an
active entry flagged as headline. -/
theorem visibleEvents_spec
    (log : List (String × List (Int × List String))) (c : String)
    (y : Int) :
    (visibleEvents log c y = EventsView.noEvents ↔ log.lookup c = none) ∧
    (∀ entries, log.lookup c = some entries →
      ∃ L, visibleEvents log c y = EventsView.blocks L ∧
        L.Pairwise (fun a b => b.y ≤ a.y) ∧
        (∀ b ∈ L, (b.isActive = true ↔ b.y = y)) ∧
        (∀ b ∈ L, ∀ i, ∀ h : i < b.texts.length,
          ((b.texts.get ⟨i, h⟩).2 = true ↔ (b.y = y ∧ i = 0))) ∧
        ((∃ e ∈ entries, e.1 ≤ y) →
          (∀ b ∈ L, b.y ≤ y) ∧
          ∀ e ∈ entries, e.1 ≤ y →
            ∃ b ∈ L, b.y = e.1 ∧ b.texts.map Prod.fst = e.2) ∧
        ((∀ e ∈ entries, y < e.1) →
          L.length = entries.length ∧
          ∀ e ∈ entries, ∃ b ∈ L, b.y = e.1 ∧ b.texts.map Prod.fst = e.2)) := by
  constructor
  · unfold visibleEvents
    cases hl : log.lookup c <;> simp
  · intro entries hl
    refine ⟨renderBlocks entries y, ?_, ?_, ?_, ?_, ?_, ?_⟩
    · unfold visibleEvents
      rw [hl]
    · unfold renderBlocks
      rw [List.pairwise_map]
      exact (selectedEntries_pairwise entries y).imp (fun h => h)
    · intro b hb
      obtain ⟨e, _, rfl⟩ := List.mem_map.mp hb
      exact renderBlock_isActive y e
    · intro b hb i h
      obtain ⟨e, _, rfl⟩ := List.mem_map.mp hb
      exact renderBlock_headline y e i h
    · intro hex
      constructor
      · intro b hb
        obtain ⟨e, he, rfl⟩ := List.mem_map.mp hb
        rw [selectedEntries_of_exists hex] at he
        have := (List.mem_filter.mp he).2
        rw [renderBlock_y]
        simpa using this
      · intro e he hey
        refine ⟨renderBlock y e, ?_, rfl, renderBlock_texts_fst y e⟩
        unfold renderBlocks
        rw [selectedEntries_of_exists hex]
        exact List.mem_map.mpr ⟨e, List.mem_filter.mpr
          ⟨mem_sortDescByYear.mpr he, by simpa using hey⟩, rfl⟩
    · intro hall
      constructor
      · unfold renderBlocks
        rw [selectedEntries_of_forall hall, List.length_map]
        exact (List.perm_insertionSort entryGE entries).length_eq
      · intro e he
        refine ⟨renderBlock y e, ?_, rfl, renderBlock_texts_fst y e⟩
        unfold renderBlocks
        rw [selectedEntries_of_forall hall]
        exact List.mem_map.mpr ⟨e, mem_sortDescByYear.mpr he, rfl⟩

def exampleLog : List (String × List (Int × List String)) :=
  [("AUT", [(2010, ["a", "b"]), (2015, ["c"]), (2020, ["d"])])]

/-- Witness for C5 on a concrete three-entry log at active year 2012. -/
theorem visibleEvents_spec_witness :
    ∃ L, visibleEvents exampleLog "AUT" 2012 = EventsView.blocks L ∧
      L.Pairwise (fun a b => b.y ≤ a.y) ∧
      (∀ b ∈ L, (b.isActive = true ↔ b.y = 2012)) ∧
      (∀ b ∈ L, ∀ i, ∀ h : i < b.texts.length,
        ((b.texts.get ⟨i, h⟩).2 = true ↔ (b.y = 2012 ∧ i = 0))) ∧
      ((∃ e ∈ [(2010, ["a", "b"]), (2015, ["c"]), (2020, ["d"])],
          e.1 ≤ (2012 : Int)) →
        (∀ b ∈ L, b.y ≤ 2012) ∧
        ∀ e ∈ [(2010, ["a", "b"]), (2015, ["c"]), (2020, ["d"])],
          e.1 ≤ (2012 : Int) →
          ∃ b ∈ L, b.y = e.1 ∧ b.texts.map Prod.fst = e.2) ∧
      ((∀ e ∈ [(2010, ["a", "b"]), (2015, ["c"]), (2020, ["d"])],
          (2012 : Int) < e.1) →
        L.length =
          [(2010, ["a", "b"]), (2015, ["c"]), (2020, ["d"])].length ∧
        ∀ e ∈ [(2010, ["a", "b"]), (2015, ["c"]), (2020, ["d"])],
          ∃ b ∈ L, b.y = e.1 ∧ b.texts.map Prod.fst = e.2) :=
  (visibleEvents_spec exampleLog "AUT" 2012).2
    [(2010, ["a", "b"]), (2015, ["c"]), (2020, ["d"])] (by decide)

/-! ## Name-resolution theorems -/

def exampleDict : List (String × String) := [("USA", "USA")]

/-- Counterexample to claim C7: The dictionary maps "USA"; the raw tabular
name "U.S.A." would resolve through the period-stripping retry the
claim promises for both sources — but the tabular path performs only
the single trimmed lookup, so it records a miss where the claimed
algorithm (implemented only on the polygon path) succeeds. -/
theorem resolveCsv_no_retry_counterexample :
    resolveCsv exampleDict (some "U.S.A.") = none ∧
    resolveClaim exampleDict (some "U.S.A.") = some "USA" ∧
    resolveGeo exampleDict (some "U.S.A.") = some "USA" := by
  decide

/-- Amended claim C7: Polygon feature names get the claimed two-step
resolution (trim, direct lookup, then a retry after period-stripping and
apostrophe normalization); tabular row names get only the single
trimmed lookup, with no retry; both paths return `none` on a miss with
no fuzzy matching or defaulting; and unresolved names are excluded
downstream — the geo code set only contains reconciled codes, and every
retained row carries a code present in that set. -/
theorem resolve_paths (dict : List (String × String)) (nm : String) :
    (resolveGeo dict (some nm) = resolveClaim dict (some nm)) ∧
    (jsGet dict (jsTrim nm) = none → resolveCsv dict (some nm) = none) ∧
    (∀ c, resolveCsv dict (some nm) = some c →
      jsGet dict (jsTrim nm) = some c) ∧
    (resolveGeo dict none = none ∧ resolveCsv dict none = none) ∧
    (∀ feats s, s ∈ geoISOSet feats → ∃ f ∈ feats, f.iso3 = some s) ∧
    (∀ geoSet rows, ∀ r ∈ retain geoSet rows,
      ∃ c, r.iso3 = some c ∧ c ∈ geoSet) := by
  refine ⟨rfl, ?_, ?_, ⟨rfl, rfl⟩, ?_, ?_⟩
  · intro h
    by_cases h0 : nm = ""
    · simp [resolveCsv, h0]
    · by_cases h1 : jsTrim nm = ""
      · simp [resolveCsv, h0, h1]
      · simp [resolveCsv, h0, h1, h]
  · intro c h
    by_cases h0 : nm = ""
    · simp [resolveCsv, h0] at h
    · by_cases h1 : jsTrim nm = ""
      · simp [resolveCsv, h0, h1] at h
      · simpa [resolveCsv, h0, h1] using h
  · intro feats s hs
    obtain ⟨f, hf, hfs⟩ := List.mem_filterMap.mp hs
    exact ⟨f, hf, hfs⟩
  · intro geoSet rows r hr
    have hp := (List.mem_filter.mp hr).2
    cases hi : r.iso3 with
    | none => rw [hi] at hp; simp at hp
    | some c =>
      rw [hi] at hp
      simp at hp
      exact ⟨c, rfl, by simpa using hp.2⟩

/-- Witness for C7 (amended): a dictionary miss on the tabular path and
a retained row whose code sits in the geo set. -/
theorem resolve_paths_witness :
    resolveCsv exampleDict (some "Norway") = none ∧
    (∃ c, (mkRow "AUT" 2015 1 none).iso3 = some c ∧ c ∈ ["AUT"]) :=
  ⟨(resolve_paths exampleDict "Norway").2.1 (by decide),
   (resolve_paths exampleDict "Norway").2.2.2.2.2 ["AUT"]
     [mkRow "AUT" 2015 1 none] (mkRow "AUT" 2015 1 none) (by decide)⟩

/-! ## View-state theorem -/

/-- Claim C8: A year-change trigger sets `selectedYear` and leaves
`selectedISO` unchanged; a country-selection trigger sets `selectedISO`
to the clicked feature's code and leaves `selectedYear` unchanged —
each trigger mutates only its own component of the state pair. -/
theorem applyTrigger_components (s : ViewState) (y : Int)
    (iso : Option String) :
    (applyTrigger s (Trigger.yearChange y)).selectedYear = y ∧
    (applyTrigger s (Trigger.yearChange y)).selectedISO = s.selectedISO ∧
    (applyTrigger s (Trigger.countrySelect iso)).selectedISO = iso ∧
    (applyTrigger s (Trigger.countrySelect iso)).selectedYear =
      s.selectedYear :=
  ⟨rfl, rfl, rfl, rfl⟩

/-! ## Detail-panel miss behaviour -/

def examplePanel : PanelView :=
  { title := "Austria", ladderText := some 7,
    factorBars := [(FactorKey.gdp, 1, 1)], covid := CovidView.noData,
    events := EventsView.noEvents }

/-- Counterexample to claim C9: Selecting a code absent from the per-country
index: the guard `if (!iso3 || !byISO.has(iso3)) return;` exits without
touching the panel, so the previously rendered content — another
country's title — is retained unchanged; no explicit empty state is
produced. -/
theorem showCountryPanel_stale_counterexample :
    showCountryPanel [("AUT", [obs2015])] exampleLog (fun _ => 1)
      (some "XYZ") "Xyzland" 2020 examplePanel = some examplePanel ∧
    examplePanel.title = "Austria" ∧ "Austria" ≠ "Xyzland" := by
  decide

/-- Amended claim C9: When the selected code is null or has no entry in
the per-country index, the panel handler returns early without crashing
(the crash path is never reached), but it leaves the previously
rendered panel content exactly as it was — dependent views retain the
stale content of a previously selected country, and no explicit empty
state is rendered. -/
theorem showCountryPanel_miss_keeps_previous
    (byISO : List (String × List Row))
    (log : List (String × List (Int × List String)))
    (fm : FactorKey → ℚ) (iso3 : Option String) (displayName : String)
    (year : Int) (prev : PanelView)
    (h : ∀ s, iso3 = some s → byISO.lookup s = none) :
    showCountryPanel byISO log fm iso3 displayName year prev =
      some prev := by
  cases iso3 with
  | none => rfl
  | some c => simp [showCountryPanel, h c rfl]

/-- Witness for C9 (amended) at a concrete index missing the selected
code. -/
theorem showCountryPanel_miss_keeps_previous_witness :
    showCountryPanel [("AUT", [obs2015])] exampleLog (fun _ => 1)
      (some "FIN") "Finland" 2020 examplePanel = some examplePanel :=
  showCountryPanel_miss_keeps_previous [("AUT", [obs2015])] exampleLog
    (fun _ => 1) (some "FIN") "Finland" 2020 examplePanel
    (fun s hs => by cases hs; decide)

/-! ## Grouping never creates an empty group -/

lemma addRow_ne_nil {c : String} {r : Row} :
    ∀ {acc : List (String × List Row)}, (∀ p ∈ acc, p.2 ≠ []) →
      ∀ p ∈ addRow c r acc, p.2 ≠ []
  | [], _, p, hp => by
    simp [addRow] at hp
    subst hp
    simp
  | (k, g) :: rest, hacc, p, hp => by
    unfold addRow at hp
    by_cases hk : k = c
    · rw [if_pos hk] at hp
      rcases List.mem_cons.mp hp with rfl | hp2
      · simp
      · exact hacc p (List.mem_cons.mpr (Or.inr hp2))
    · rw [if_neg hk] at hp
      rcases List.mem_cons.mp hp with rfl | hp2
      · exact hacc (k, g) (List.mem_cons.mpr (Or.inl rfl))
      · exact addRow_ne_nil
          (fun q hq => hacc q (List.mem_cons.mpr (Or.inr hq))) p hp2

lemma groupInto_ne_nil :
    ∀ (rows : List Row) (acc : List (String × List Row)),
      (∀ p ∈ acc, p.2 ≠ []) → ∀ p ∈ groupInto acc rows, p.2 ≠ []
  | [], acc, hacc => by simpa [groupInto] using hacc
  | r :: rs, acc, hacc => by
    unfold groupInto
    cases hi : r.iso3 with
    | none => exact groupInto_ne_nil rs acc hacc
    | some c => exact groupInto_ne_nil rs (addRow c r acc) (addRow_ne_nil hacc)

lemma exists_mem_of_lookup_eq_some {β : Type} {l : List (String × β)}
    {c : String} {g : β} (h : l.lookup c = some g) : ∃ k, (k, g) ∈ l := by
  induction l with
  | nil => simp [List.lookup] at h
  | cons p t ih =>
    cases p with
    | mk k v =>
      by_cases hc : (c == k) = true
      · have he : List.lookup c ((k, v) :: t) = some v := by
          simp [List.lookup, hc]
        rw [he] at h
        cases h
        exact ⟨k, List.mem_cons.mpr (Or.inl rfl)⟩
      · have hcf : (c == k) = false := by simpa using hc
        have he : List.lookup c ((k, v) :: t) = List.lookup c t := by
          simp [List.lookup, hcf]
        rw [he] at h
        obtain ⟨k2, hk2⟩ := ih h
        exact ⟨k2, List.mem_cons.mpr (Or.inr hk2)⟩

/-- Claim C10: Any group the per-country index resolves for a code — the
index being the grouping of the retained rows — is non-empty, so past
the panel guard the sorted series is non-empty and the year-lookup
chain always yields an observation: its no-observation branch is
unreachable. -/
theorem groupByISO_lookup_nonempty (geoSet : List String)
    (rows : List Row) (c : String) (g : List Row) (y : Int)
    (h : (groupByISO (retain geoSet rows)).lookup c = some g) :
    g ≠ [] ∧ sortByYear g ≠ [] ∧ (lookupYear g y).isSome := by
  obtain ⟨k, hk⟩ := exists_mem_of_lookup_eq_some h
  have hne : g ≠ [] :=
    groupInto_ne_nil (retain geoSet rows) [] (by simp) (k, g) hk
  refine ⟨hne, ?_, lookupYear_isSome_of_ne_nil hne⟩
  intro hs
  exact hne (sortByYear_eq_nil_iff.mp hs)

/-- Witness for C10 on a one-row retained dataset. -/
theorem groupByISO_lookup_nonempty_witness :
    [obs2015] ≠ [] ∧ sortByYear [obs2015] ≠ [] ∧
      (lookupYear [obs2015] 2020).isSome :=
  groupByISO_lookup_nonempty ["AUT"] [obs2015] "AUT" [obs2015] 2020
    (by decide)

end WorldHappiness
